import Mathlib

set_option linter.unusedVariables false

/-!
Shallow embedding of `src/contract_tool.py` (contract review pipeline).

The program sequences five chat-completion calls (clause extraction, risk
analysis, compliance analysis, report generation, accuracy check) over a
contract text, parsing the structured replies as JSON.  The embedding below
translates the pure computational content of the source: the reply
post-processing (`strip`/`replace`/`json.loads`), the per-agent prompt
construction and reply handling, the worker thread `ContractProcessingThread.run`
as a trace of emitted signals and issued requests, the `process_contract`
entry guard, and the combined-report exporter.

External library functions the source relies on are modelled at the level the
program observes them: `jsonLoads` models Python `json.loads` (RFC 8259
grammar with the whitespace set `[ \t\n\r]`, strings with escapes, numbers
kept as their lexeme; the non-standard constants NaN/Infinity are not used by
any property below), `jsonDumps` models `json.dumps(..., ensure_ascii=False,
indent=2)`, `pyStrip` models `str.strip()` on the ASCII whitespace range,
`pyReplaceDel` models the single left-to-right pass of `str.replace(pat, '')`.
The HTTP transport is an environment parameter: an `ApiOutcome` describes what
one `requests.post` exchange did, and `call_api` is the source's handling of
that outcome.
-/

/-- JSON values as produced by Python's `json` module when decoding API
replies.  Numbers keep their decoded lexeme: the program never does arithmetic
on decoded numbers, it only re-serializes them. -/
inductive Json where
  | null : Json
  | bool (b : Bool) : Json
  | num (lexeme : String) : Json
  | str (s : String) : Json
  | arr (items : List Json) : Json
  | obj (members : List (String × Json)) : Json

/-- JSON insignificant whitespace (RFC 8259), the characters `json.loads`
skips around tokens. -/
def isJsonWsB (c : Char) : Bool :=
  c = ' ' || c = '\t' || c = '\n' || c = Char.ofNat 13

/-- The ASCII whitespace characters removed by Python `str.strip()`
(space, tab, newline, carriage return, vertical tab, form feed). -/
def pyIsSpace (c : Char) : Bool :=
  c = ' ' || c = '\t' || c = '\n' || c = Char.ofNat 13 || c = Char.ofNat 11 || c = Char.ofNat 12

/-- Drop a run of characters satisfying `p` from the front. -/
def dropLead (p : Char → Bool) (l : List Char) : List Char := l.dropWhile p

/-- Drop a run of characters satisfying `p` from the back. -/
def dropTail (p : Char → Bool) (l : List Char) : List Char :=
  (l.reverse.dropWhile p).reverse

/-- Strip characters satisfying `p` from both ends. -/
def trimBoth (p : Char → Bool) (l : List Char) : List Char :=
  dropTail p (dropLead p l)

/-- Python `str.strip()` with no argument (ASCII whitespace range). -/
def pyStrip (s : String) : String := String.mk (trimBoth pyIsSpace s.data)

/-- Skip JSON whitespace. -/
def skipWs (l : List Char) : List Char := l.dropWhile isJsonWsB

/-- Value of a hexadecimal digit, used for `\uXXXX` string escapes. -/
def hexVal (c : Char) : Option Nat :=
  if '0' ≤ c ∧ c ≤ '9' then some (c.toNat - 48)
  else if 'a' ≤ c ∧ c ≤ 'f' then some (c.toNat - 87)
  else if 'A' ≤ c ∧ c ≤ 'F' then some (c.toNat - 55)
  else none

/-- Body of a JSON string after the opening quote: strict mode of
`json.loads` (raw control characters below 0x20 are rejected), escape
sequences as in RFC 8259.  Returns the decoded string and the remaining
input after the closing quote. -/
def parseStrBody : Nat → List Char → List Char → Option (String × List Char)
  | 0, _, _ => none
  | _ + 1, [], _ => none
  | f + 1, c :: rest, acc =>
    if c = '"' then some (String.mk acc.reverse, rest)
    else if c = '\\' then
      match rest with
      | [] => none
      | e :: r2 =>
        if e = '"' then parseStrBody f r2 ('"' :: acc)
        else if e = '\\' then parseStrBody f r2 ('\\' :: acc)
        else if e = '/' then parseStrBody f r2 ('/' :: acc)
        else if e = 'b' then parseStrBody f r2 (Char.ofNat 8 :: acc)
        else if e = 'f' then parseStrBody f r2 (Char.ofNat 12 :: acc)
        else if e = 'n' then parseStrBody f r2 ('\n' :: acc)
        else if e = 'r' then parseStrBody f r2 (Char.ofNat 13 :: acc)
        else if e = 't' then parseStrBody f r2 ('\t' :: acc)
        else if e = 'u' then
          match r2 with
          | a :: b :: c2 :: d :: r3 =>
            match hexVal a, hexVal b, hexVal c2, hexVal d with
            | some ha, some hb, some hc, some hd =>
              parseStrBody f r3 (Char.ofNat (((ha * 16 + hb) * 16 + hc) * 16 + hd) :: acc)
            | _, _, _, _ => none
          | _ => none
        else none
    else if c.toNat < 32 then none
    else parseStrBody f rest (c :: acc)

/-- Longest digit run at the front. -/
def spanDigits : List Char → List Char × List Char
  | [] => ([], [])
  | c :: t =>
    if c.isDigit then
      let p := spanDigits t
      (c :: p.1, p.2)
    else ([], c :: t)

/-- Fractional part of a JSON number: `(\.\d+)?` — consumed only when a dot
with at least one digit follows, as in the `json` module's number regex. -/
def parseNumFrac (l : List Char) : List Char × List Char :=
  match l with
  | d :: t =>
    if d = '.' then
      match spanDigits t with
      | ([], _) => ([], l)
      | (ds, r) => ('.' :: ds, r)
    else ([], l)
  | [] => ([], l)

/-- Exponent part of a JSON number: `([eE][-+]?\d+)?`. -/
def parseNumExp (l : List Char) : List Char × List Char :=
  match l with
  | x :: t =>
    if x = 'e' ∨ x = 'E' then
      let sgn := match t with
        | s :: t2 => if s = '+' ∨ s = '-' then ([s], t2) else (([] : List Char), t)
        | [] => ([], t)
      match spanDigits sgn.2 with
      | ([], _) => ([], l)
      | (ds, r) => (x :: (sgn.1 ++ ds), r)
    else ([], l)
  | [] => ([], l)

/-- A JSON number token `-?(0|[1-9]\d*)(\.\d+)?([eE][-+]?\d+)?`; returns its
lexeme and the rest of the input. -/
def parseNum (l : List Char) : Option (String × List Char) :=
  let sgn : List Char × List Char :=
    match l with
    | c :: t => if c = '-' then ([c], t) else ([], l)
    | [] => ([], [])
  match sgn.2 with
  | [] => none
  | c :: t =>
    if c = '0' then
      let fr := parseNumFrac t
      let ex := parseNumExp fr.2
      some (String.mk (sgn.1 ++ [c] ++ fr.1 ++ ex.1), ex.2)
    else if c.isDigit then
      let ip := spanDigits (c :: t)
      let fr := parseNumFrac ip.2
      let ex := parseNumExp fr.2
      some (String.mk (sgn.1 ++ ip.1 ++ fr.1 ++ ex.1), ex.2)
    else none

/-- Insert a member into a decoded object the way a CPython dict does:
a duplicate key keeps its original position and takes the later value. -/
def insertKV : List (String × Json) → String → Json → List (String × Json)
  | [], k, v => [(k, v)]
  | (k0, v0) :: rest, k, v =>
    if k0 = k then (k0, v) :: rest else (k0, v0) :: insertKV rest k v

mutual

/-- Recursive-descent JSON value parser (fuel-indexed; the fuel used by
`jsonLoads` always suffices because every recursive call follows at least one
consumed character).  Expects the input to start at the value's first
character; whitespace inside containers is handled explicitly. -/
def parseVal : Nat → List Char → Option (Json × List Char)
  | 0, _ => none
  | _ + 1, [] => none
  | f + 1, c :: rest =>
    if c = Char.ofNat 123 then
      match skipWs rest with
      | c2 :: r2 =>
        if c2 = Char.ofNat 125 then some (Json.obj [], r2)
        else parseMembers f (c2 :: r2) []
      | [] => none
    else if c = '[' then
      match skipWs rest with
      | c2 :: r2 =>
        if c2 = ']' then some (Json.arr [], r2)
        else parseItems f (c2 :: r2) []
      | [] => none
    else if c = '"' then
      match parseStrBody (rest.length + 1) rest [] with
      | some (s, r) => some (Json.str s, r)
      | none => none
    else if c = 't' then
      if ['r', 'u', 'e'].isPrefixOf rest then some (Json.bool true, rest.drop 3) else none
    else if c = 'f' then
      if ['a', 'l', 's', 'e'].isPrefixOf rest then some (Json.bool false, rest.drop 4) else none
    else if c = 'n' then
      if ['u', 'l', 'l'].isPrefixOf rest then some (Json.null, rest.drop 3) else none
    else if c = '-' ∨ c.isDigit then
      match parseNum (c :: rest) with
      | some (lex, r) => some (Json.num lex, r)
      | none => none
    else none

/-- Object members after `{` and leading whitespace (the empty object was
already handled by `parseVal`). -/
def parseMembers : Nat → List Char → List (String × Json) → Option (Json × List Char)
  | 0, _, _ => none
  | f + 1, l, acc =>
    match l with
    | c :: rest =>
      if c = '"' then
        match parseStrBody (rest.length + 1) rest [] with
        | some (k, r1) =>
          match skipWs r1 with
          | c2 :: r2 =>
            if c2 = ':' then
              match parseVal f (skipWs r2) with
              | some (v, r3) =>
                match skipWs r3 with
                | c3 :: r4 =>
                  if c3 = ',' then
                    match skipWs r4 with
                    | c4 :: r5 => parseMembers f (c4 :: r5) (insertKV acc k v)
                    | [] => none
                  else if c3 = Char.ofNat 125 then some (Json.obj (insertKV acc k v), r4)
                  else none
                | [] => none
              | none => none
            else none
          | [] => none
        | none => none
      else none
    | [] => none

/-- Array items after `[` and leading whitespace (the empty array was already
handled by `parseVal`). -/
def parseItems : Nat → List Char → List Json → Option (Json × List Char)
  | 0, _, _ => none
  | f + 1, l, acc =>
    match parseVal f l with
    | some (v, r1) =>
      match skipWs r1 with
      | c :: r2 =>
        if c = ',' then parseItems f (skipWs r2) (v :: acc)
        else if c = ']' then some (Json.arr (v :: acc).reverse, r2)
        else none
      | [] => none
    | none => none

end

/-- Strip JSON whitespace from both ends. -/
def trimWs (l : List Char) : List Char := trimBoth isJsonWsB l

/-- Models Python `json.loads` as the program observes it: leading and
trailing whitespace is ignored, a single JSON value must span the rest of the
input, `none` corresponds to `json.loads` raising. -/
def jsonLoads (s : String) : Option Json :=
  match parseVal ((trimWs s.data).length + 1) (trimWs s.data) with
  | some (v, []) => some v
  | _ => none

/-- A hexadecimal digit character. -/
def hexDigit (n : Nat) : Char := if n < 10 then Char.ofNat (48 + n) else Char.ofNat (87 + n)

/-- JSON string escaping used by `json.dumps(..., ensure_ascii=False)`. -/
def jsonEscapeChar (c : Char) : String :=
  if c = '"' then "\\\""
  else if c = '\\' then "\\\\"
  else if c = '\n' then "\\n"
  else if c = '\t' then "\\t"
  else if c = Char.ofNat 13 then "\\r"
  else if c = Char.ofNat 8 then "\\b"
  else if c = Char.ofNat 12 then "\\f"
  else if c.toNat < 32 then "\\u00" ++ String.mk [hexDigit (c.toNat / 16), hexDigit (c.toNat % 16)]
  else String.singleton c

/-- Escape a whole string for JSON serialization. -/
def jsonEscape (s : String) : String := s.data.foldl (fun acc c => acc ++ jsonEscapeChar c) ""

/-- `n` spaces. -/
def spaces (n : Nat) : String := String.mk (List.replicate n ' ')

/-- Models `json.dumps(value, ensure_ascii=False, indent=2)` at nesting level
`lvl`: containers spread one element per line, elements indented two more
spaces than their container, key and value separated by `": "`.  Numbers are
emitted by their lexeme. -/
def jsonDumpsAux (lvl : Nat) : Json → String
  | Json.null => "null"
  | Json.bool true => "true"
  | Json.bool false => "false"
  | Json.num lex => lex
  | Json.str s => "\"" ++ jsonEscape s ++ "\""
  | Json.arr items =>
      if items.isEmpty then "[]"
      else
        "[\n" ++
        String.intercalate ",\n"
          ((items.attach).map (fun x =>
            spaces (2 * (lvl + 1)) ++ jsonDumpsAux (lvl + 1) x.1)) ++
        "\n" ++ spaces (2 * lvl) ++ "]"
  | Json.obj members =>
      if members.isEmpty then "\x7b\x7d"
      else
        "\x7b\n" ++
        String.intercalate ",\n"
          ((members.attach).map (fun x =>
            spaces (2 * (lvl + 1)) ++ "\"" ++ jsonEscape x.1.1 ++ "\": " ++
            jsonDumpsAux (lvl + 1) x.1.2)) ++
        "\n" ++ spaces (2 * lvl) ++ "\x7d"
  termination_by j => sizeOf j
  decreasing_by
  all_goals simp_wf
  all_goals
    first
      | (have h := List.sizeOf_lt_of_mem x.2
         omega)
      | (obtain ⟨⟨a, b⟩, hx⟩ := x
         have h := List.sizeOf_lt_of_mem hx
         simp only [Prod.mk.sizeOf_spec] at h
         simp only
         omega)

/-- `json.dumps(value, ensure_ascii=False, indent=2)`. -/
def jsonDumps (j : Json) : String := jsonDumpsAux 0 j

/-- Python `repr` escaping for a single-quoted string literal (the cases that
can arise from decoded JSON text). -/
def pyReprEscapeChar (c : Char) : String :=
  if c = '\\' then "\\\\"
  else if c = Char.ofNat 39 then "\\'"
  else if c = '\n' then "\\n"
  else if c = Char.ofNat 13 then "\\r"
  else if c = '\t' then "\\t"
  else String.singleton c

/-- Python `repr` of a string as a single-quoted literal. -/
def pyReprStr (s : String) : String :=
  "'" ++ s.data.foldl (fun acc c => acc ++ pyReprEscapeChar c) "" ++ "'"

/-- Python `repr` of a value decoded from JSON (dicts and lists print their
elements recursively, strings print single-quoted). -/
def pyRepr : Json → String
  | Json.null => "None"
  | Json.bool true => "True"
  | Json.bool false => "False"
  | Json.num lex => lex
  | Json.str s => pyReprStr s
  | Json.arr items =>
      "[" ++ String.intercalate ", " (items.attach.map fun x => pyRepr x.1) ++ "]"
  | Json.obj members =>
      "\x7b" ++
      String.intercalate ", "
        (members.attach.map fun x => pyReprStr x.1.1 ++ ": " ++ pyRepr x.1.2) ++
      "\x7d"
  termination_by j => sizeOf j
  decreasing_by
  all_goals simp_wf
  all_goals
    first
      | (have h := List.sizeOf_lt_of_mem x.2
         omega)
      | (obtain ⟨⟨a, b⟩, hx⟩ := x
         have h := List.sizeOf_lt_of_mem hx
         simp only [Prod.mk.sizeOf_spec] at h
         simp only
         omega)

/-- Python `str()` of a value decoded from JSON, as used by the f-strings in
`generate_combined_report`: a string prints itself, everything else prints as
its `repr`. -/
def pyStr : Json → String
  | Json.str s => s
  | j => pyRepr j

/-- One left-to-right pass of Python `str.replace(pat, '')` over the
remaining input: when `pat` matches at the current position the match is
skipped (the `skip` counter counts the matched characters still to be
consumed) and scanning resumes after it; otherwise the character is kept. -/
def replAux (p : List Char) : Nat → List Char → List Char
  | _, [] => []
  | s + 1, _ :: t => replAux p s t
  | 0, c :: t =>
    if p.isPrefixOf (c :: t) && !p.isEmpty then replAux p (p.length - 1) t
    else c :: replAux p 0 t

/-- Python `s.replace(pat, '')`: delete every (left-to-right, non-overlapping)
occurrence of `pat` in `s`. -/
def pyReplaceDel (s pat : String) : String := String.mk (replAux pat.data 0 s.data)

/-- The preprocessing every structured agent applies to its raw reply before
`json.loads`: `response.strip().replace('```json', '').replace('```', '')`
(src/contract_tool.py lines 90, 121, 165). -/
def cleanResponse (r : String) : String :=
  pyReplaceDel (pyReplaceDel (pyStrip r) "```json") "```"

/-- Shared body of the three structured `analyze` methods (lines 88–97,
120–127, 164–171): clean the reply, `json.loads` it, and on failure return
the one-key error record built from the (cleaned) reply bound to the local
variable `response` at that point. -/
def parseAgentResponse (r : String) : Json :=
  match jsonLoads (cleanResponse r) with
  | some j => j
  | none =>
    Json.obj [("解析错误", Json.str ("无法将响应解析为JSON格式。原始响应: " ++ cleanResponse r))]

/-- One `requests.post` exchange restricted to string-valued content: the
HTTP status code, the response text, and the outcome of evaluating
`response.json()["choices"][0]["message"]["content"]` — `.ok c` when the
body is valid JSON carrying the string `c` at that path, `.error m` when
that evaluation raises with message `m` (undecodable body or missing path).
This is the string-content restriction of `ApiJsonResponse` below (the
shape the chat-completions protocol specifies for `content`); the pipeline
stages are stated over this restriction, and `call_api_restriction` proves
it agrees with the full model `call_api_full` on it.  A non-string content
value — expressible only in the full model — is returned by `call_api`
verbatim; it still cannot escape a structured agent, because
`response.strip()` sits inside the agents' bare `try`/`except` (line 90),
so such a reply also produces the one-key parse-error record. -/
structure ApiResponse where
  statusCode : Nat
  text : String
  content : Except String String

/-- Behavior of the transport for one call: either `requests.post` raised
(with message `msg`), or it returned a response. -/
inductive ApiOutcome where
  | exn (msg : String) : ApiOutcome
  | resp (r : ApiResponse) : ApiOutcome

/-- `Agent.call_api` (lines 36–61): the request body is built from the
prompts (recorded separately as a `ChatRequest` by each agent below); on a
200 response the first completion's message content is returned verbatim; on
any other status a failure string embedding status and text is returned; any
exception raised inside the `try` block (transport failure, undecodable body,
missing path) is caught and returned as an error string.  The function
returns in every case; it never propagates an exception. -/
def call_api (o : ApiOutcome) : String :=
  match o with
  | ApiOutcome.exn msg => "API调用异常: " ++ msg
  | ApiOutcome.resp r =>
    if r.statusCode = 200 then
      match r.content with
      | Except.ok c => c
      | Except.error e => "API调用异常: " ++ e
    else "API调用失败: HTTP " ++ toString r.statusCode ++ ", " ++ r.text

/-- Whether a JSON value is a string. -/
def Json.isStr : Json → Bool
  | Json.str _ => true
  | _ => false

/-- Full model of one `requests.post` exchange as `Agent.call_api` observes
it: the status code, the response text, and the outcome of evaluating
`response.json()["choices"][0]["message"]["content"]` — `.ok v` when the
body is valid JSON carrying the value `v` (of any JSON type, not necessarily
a string) at that path, `.error m` when that evaluation raises with message
`m` (undecodable body or missing path). -/
structure ApiJsonResponse where
  statusCode : Nat
  text : String
  content : Except String Json

/-- Behavior of the transport for one call in the full model: either
`requests.post` raised, or it returned a response. -/
inductive ApiJsonOutcome where
  | exn (msg : String) : ApiJsonOutcome
  | resp (r : ApiJsonResponse) : ApiJsonOutcome

/-- `Agent.call_api` (lines 36–61) over the full response model.  On a 200
response the expression `response.json()["choices"][0]["message"]["content"]`
is returned verbatim, whatever JSON value sits at that path — the source has
no type check, so a non-string content value (e.g. `null` or a number) is
returned as-is, not as a string.  Every caught exception and every non-200
status is converted to an error string.  The function always returns; no
exception propagates to the caller. -/
def call_api_full (o : ApiJsonOutcome) : Json :=
  match o with
  | ApiJsonOutcome.exn msg => Json.str ("API调用异常: " ++ msg)
  | ApiJsonOutcome.resp r =>
    if r.statusCode = 200 then
      match r.content with
      | Except.ok v => v
      | Except.error e => Json.str ("API调用异常: " ++ e)
    else Json.str ("API调用失败: HTTP " ++ toString r.statusCode ++ ", " ++ r.text)

/-- Lift a string-content evaluation outcome into the full model. -/
def contentOfString : Except String String → Except String Json
  | Except.ok s => Except.ok (Json.str s)
  | Except.error e => Except.error e

/-- Lift a restricted transport behavior into the full model. -/
def toJsonOutcome : ApiOutcome → ApiJsonOutcome
  | ApiOutcome.exn m => ApiJsonOutcome.exn m
  | ApiOutcome.resp r => ApiJsonOutcome.resp ⟨r.statusCode, r.text, contentOfString r.content⟩

/-- One chat-completion request as the agent builds it: the system prompt and
the user prompt placed into `messages` (lines 38–46). -/
structure ChatRequest where
  system : String
  user : String

/-- System prompt of `ClauseExtractionAgent.analyze` (lines 67–82). -/
def clauseSystemPrompt : String :=
  "\n        你是一个专业的合同条款分析专家。你的任务是从合同文本中提取关键条款信息。\n        请识别并提取以下类型的条款：\n        1. 合同双方信息\n        2. 合同标的\n        3. 价格与支付条款\n        4. 交付条款\n        5. 违约责任\n        6. 争议解决方式\n        7. 保密条款\n        8. 合同有效期\n        9. 终止条款\n\n        请以JSON格式返回结果，包含条款类型和对应的条款内容。\n        如果某个条款类型在合同中未找到，请在JSON中包含该条款类型并将其值设为\"未找到\"。\n        "

/-- System prompt of `RiskAnalysisAgent.analyze` (lines 103–113). -/
def riskSystemPrompt : String :=
  "\n        你是一位经验丰富的合同风险评估专家。基于提取的合同关键条款信息，\n        请对合同进行风险量化分析。评估每个条款的风险等级（低、中、高），\n        计算总体风险得分（0-100分），并提供详细的风险分析报告。\n\n        请以JSON格式返回结果，包含以下内容：\n        1. 各条款风险评估（风险等级和理由）\n        2. 总体风险得分\n        3. 主要风险点摘要\n        4. 风险等级（基于总体得分：0-30低风险，31-60中等风险，61-100高风险）\n        "

/-- The default rule set used by `ComplianceAnalysisAgent.analyze` when the
caller passes no rules (lines 133–144). -/
def defaultComplianceRules : String :=
  "\n            1. 合同必须明确双方当事人的名称、地址和联系方式。\n            2. 合同标的必须明确、具体，具有可操作性。\n            3. 价格条款必须明确金额、支付方式和支付时间。\n            4. 交付条款必须明确交付时间、地点和方式。\n            5. 违约责任条款必须明确双方的责任和赔偿方式。\n            6. 争议解决条款必须符合法律规定，明确解决方式。\n            7. 保密条款必须明确保密信息范围和保密期限。\n            8. 合同有效期必须明确起始和终止日期。\n            9. 终止条款必须明确终止条件和程序。\n            "

/-- System prompt of `ComplianceAnalysisAgent.analyze`, an f-string embedding
the rule text (lines 146–157). -/
def complianceSystemPrompt (rules : String) : String :=
  "\n        你是一位资深的合同合规性审查专家。请根据以下合规性规则，\n        对提供的合同条款进行合规性分析：\n\n        " ++ rules ++ "\n\n        请以JSON格式返回结果，包含：\n        1. 各条款合规性评估（合规、不合规、部分合规）\n        2. 不合规条款的详细说明和建议\n        3. 总体合规性评级（合规、基本合规、不合规）\n        4. 合规性得分（0-100分）\n        "

/-- System prompt of `ReportGenerationAgent.generate` (lines 177–190). -/
def reportSystemPrompt : String :=
  "\n        你是一位专业的合同审查报告撰写专家。请根据提供的合同条款信息、\n        风险分析数据和合规性分析数据，生成一份全面的合同审查报告。\n\n        报告应包括以下部分：\n        1. 报告概述（包括合同基本信息和审查日期）\n        2. 关键条款摘要\n        3. 风险评估结果\n        4. 合规性分析结果\n        5. 综合评估与建议\n        6. 整改建议清单\n\n        请以清晰、专业的语言撰写报告，确保内容准确、有逻辑性且易于理解。\n        "

/-- System prompt of `AccuracyCheckAgent.check` (lines 207–219). -/
def accuracySystemPrompt : String :=
  "\n        你是一位严谨的合同审查质量保证专家。请检查生成的合同审查报告\n        是否准确反映了原始合同的内容。重点检查以下方面：\n\n        1. 关键条款提取的准确性\n        2. 风险评估的合理性\n        3. 合规性分析的准确性\n        4. 报告中是否存在事实性错误\n        5. 建议的相关性和可行性\n\n        请提供一份准确性检查报告，指出任何不准确或需要改进的地方，\n        并给出改进建议。\n        "

/-- User prompt of `AccuracyCheckAgent.check`, an f-string embedding the
original contract and the generated report (lines 221–229). -/
def accuracyUserPrompt (original_contract generated_report : String) : String :=
  "\n        原始合同文本：\n        " ++ original_contract ++
  "\n\n        生成的审查报告：\n        " ++ generated_report ++
  "\n\n        请对上述审查报告进行准确性检查。\n        "

/-- The request issued by `ClauseExtractionAgent.analyze` for a contract text
(line 84). -/
def clauseRequest (contract_text : String) : ChatRequest :=
  ⟨clauseSystemPrompt, "请分析以下合同文本并提取关键条款信息：\n\n" ++ contract_text⟩

/-- `ClauseExtractionAgent.analyze` (lines 66–97): issue the request, then
clean and parse the reply.  `o` is the transport's behavior for the one call
the method makes. -/
def clauseAnalyze (o : ApiOutcome) (contract_text : String) : ChatRequest × Json :=
  (clauseRequest contract_text, parseAgentResponse (call_api o))

/-- The request issued by `RiskAnalysisAgent.analyze`: the clause data is
serialized with `json.dumps(..., ensure_ascii=False, indent=2)` into the user
prompt (lines 115–116). -/
def riskRequest (clause_data : Json) : ChatRequest :=
  ⟨riskSystemPrompt, "请对以下合同条款进行风险量化分析：\n\n" ++ jsonDumps clause_data⟩

/-- `RiskAnalysisAgent.analyze` (lines 101–127). -/
def riskAnalyze (o : ApiOutcome) (clause_data : Json) : ChatRequest × Json :=
  (riskRequest clause_data, parseAgentResponse (call_api o))

/-- The request issued by `ComplianceAnalysisAgent.analyze` (lines 132–160);
`none` for the rules selects the default rule set. -/
def complianceRequest (clause_data : Json) (compliance_rules : Option String) : ChatRequest :=
  ⟨complianceSystemPrompt (compliance_rules.getD defaultComplianceRules),
   "请对以下合同条款进行合规性分析：\n\n" ++ jsonDumps clause_data⟩

/-- `ComplianceAnalysisAgent.analyze` (lines 131–171). -/
def complianceAnalyze (o : ApiOutcome) (clause_data : Json)
    (compliance_rules : Option String) : ChatRequest × Json :=
  (complianceRequest clause_data compliance_rules, parseAgentResponse (call_api o))

/-- The request issued by `ReportGenerationAgent.generate`: the three
structured stage results are combined into one JSON envelope (lines 192–199). -/
def reportRequest (clause_data risk_data compliance_data : Json) : ChatRequest :=
  ⟨reportSystemPrompt,
   "请根据以下数据生成合同审查报告：\n\n" ++
     jsonDumps (Json.obj
       [("条款信息", clause_data), ("风险分析", risk_data), ("合规性分析", compliance_data)])⟩

/-- `ReportGenerationAgent.generate` (lines 175–201): the reply is returned
verbatim, no structured parse is attempted. -/
def reportGenerate (o : ApiOutcome) (clause_data risk_data compliance_data : Json) :
    ChatRequest × String :=
  (reportRequest clause_data risk_data compliance_data, call_api o)

/-- The request issued by `AccuracyCheckAgent.check` (lines 206–229). -/
def accuracyRequest (original_contract generated_report : String) : ChatRequest :=
  ⟨accuracySystemPrompt, accuracyUserPrompt original_contract generated_report⟩

/-- `AccuracyCheckAgent.check` (lines 205–231): the reply is returned
verbatim. -/
def accuracyCheck (o : ApiOutcome) (original_contract generated_report : String) :
    ChatRequest × String :=
  (accuracyRequest original_contract generated_report, call_api o)

/-- The five stage results accumulated in `self.results`, in insertion order:
条款提取, 风险分析, 合规性分析, 审查报告, 准确性检查 (lines 260–284).  The first
three are parsed JSON (or one-key parse-error records); the last two are raw
reply strings. -/
structure RunResults where
  clauses : Json
  risk : Json
  compliance : Json
  report : String
  accuracy : String

/-- A signal emitted by `ContractProcessingThread`: `progress_updated(int,
str)`, `processing_complete(results)`, or `processing_error(str)`
(lines 236–238). -/
inductive Event where
  | progress (percent : Nat) (message : String) : Event
  | complete (results : RunResults) : Event
  | error (msg : String) : Event

/-- Whether an event is a failure notification. -/
def Event.isError : Event → Bool
  | Event.error _ => true
  | _ => false

/-- Whether an event is a completion notification. -/
def Event.isComplete : Event → Bool
  | Event.complete _ => true
  | _ => false

/-- Trace of one `ContractProcessingThread.run`: the signals emitted in
order, the chat requests issued in order (one per stage), and the
accumulated results. -/
structure RunTrace where
  events : List Event
  requests : List ChatRequest
  results : RunResults

/-- `ContractProcessingThread.run` (lines 246–290).  `env i` is the
transport's behavior for the i-th API call of the run (0 = clause extraction,
1 = risk, 2 = compliance, 3 = report, 4 = accuracy).  Every operation in the
`try` block is total here — `call_api` catches its own exceptions and
returns a string — so the modelled run always reaches
`processing_complete`; the `except` branch of `run` is unreachable for the
behaviors the model covers. -/
def runThread (env : Nat → ApiOutcome) (contract_text : String) : RunTrace :=
  let c := clauseAnalyze (env 0) contract_text
  let clause_data := c.2
  let r := riskAnalyze (env 1) clause_data
  let risk_data := r.2
  let k := complianceAnalyze (env 2) clause_data none
  let compliance_data := k.2
  let g := reportGenerate (env 3) clause_data risk_data compliance_data
  let report := g.2
  let a := accuracyCheck (env 4) contract_text report
  let accuracy_check := a.2
  let results : RunResults := ⟨clause_data, risk_data, compliance_data, report, accuracy_check⟩
  { events :=
      [Event.progress 10 "初始化智能体...",
       Event.progress 20 "正在提取合同关键条款...",
       Event.progress 35 "合同关键条款提取完成",
       Event.progress 40 "正在进行风险量化分析...",
       Event.progress 55 "风险量化分析完成",
       Event.progress 60 "正在进行合规性分析...",
       Event.progress 75 "合规性分析完成",
       Event.progress 80 "正在生成审查报告...",
       Event.progress 90 "审查报告生成完成",
       Event.progress 91 "正在检查报告准确性...",
       Event.progress 100 "报告准确性检查完成",
       Event.complete results],
    requests := [c.1, r.1, k.1, g.1, a.1],
    results := results }

/-- The percent values of the progress notifications of a trace, in emission
order. -/
def progressPercents (t : RunTrace) : List Nat :=
  t.events.filterMap fun e =>
    match e with
    | Event.progress p _ => some p
    | _ => none

/-- Outcome of `ContractReviewApp.process_contract` (lines 620–641): either
the run is rejected with a warning dialog (title, message) before any thread
is created, or a `ContractProcessingThread` is started with the current
contract text and API key. -/
inductive ProcessDecision where
  | rejected (title msg : String) : ProcessDecision
  | started (contract_text api_key : String) : ProcessDecision

/-- `ContractReviewApp.process_contract` (lines 620–641): an empty contract
text is rejected first, then an empty API key; only otherwise is the worker
thread constructed and started.  Python string truthiness makes both guards
emptiness tests. -/
def processContract (contract_text api_key : String) : ProcessDecision :=
  if contract_text = "" then ProcessDecision.rejected "合同为空" "请先加载合同文件"
  else if api_key = "" then ProcessDecision.rejected "API密钥未设置" "请先设置API密钥"
  else ProcessDecision.started contract_text api_key

/-- Body of one dict-valued section of the combined report: one `###` block
per key, dict/list values rendered as fenced JSON, scalars rendered with an
f-string (lines 773–779 and the identical loops at 786–792, 799–805). -/
def itemsBody : List (String × Json) → String
  | [] => ""
  | (k, v) :: rest =>
    "### " ++ k ++ "\n" ++
    (match v with
     | Json.obj _ => "```json\n" ++ jsonDumps v ++ "\n```\n\n"
     | Json.arr _ => "```json\n" ++ jsonDumps v ++ "\n```\n\n"
     | _ => pyStr v ++ "\n\n") ++
    itemsBody rest

/-- Body of one of the three structured sections of the combined report: the
per-key listing when the stage result is a dict, otherwise the f-string
rendering of the whole value (lines 772–781 etc.). -/
def sectionBody : Json → String
  | Json.obj members => itemsBody members
  | j => pyStr j ++ "\n\n"

/-- `ContractReviewApp.generate_combined_report` (lines 763–817), with the
formatted review date passed in for `datetime.now()`.  A completed run always
populates all five keys of `self.results`, so the `.get` defaults of the
source are never taken on the `RunResults` of a finished pipeline. -/
def generateCombinedReport (res : RunResults) (now : String) : String :=
  "# 合同审查综合报告\n\n" ++
  ("**审查日期:** " ++ now ++ "\n\n") ++
  "## 一、关键条款提取结果\n\n" ++
  sectionBody res.clauses ++
  "## 二、风险量化分析结果\n\n" ++
  sectionBody res.risk ++
  "## 三、合规性分析结果\n\n" ++
  sectionBody res.compliance ++
  "## 四、详细审查报告\n\n" ++
  res.report ++
  ("\n\n## 五、准确性检查结果\n\n" ++
  res.accuracy)

/-- A reply wrapped in Markdown code fences the way chat models commonly
return JSON. -/
def wrapFence (s : String) : String := "```json\n" ++ s ++ "\n```"

/-- A transport environment in which the second stage's call (risk analysis)
raises a connection error inside `requests.post`, while every other call
succeeds with status 200. -/
def envRiskFail : Nat → ApiOutcome :=
  fun i =>
    if i = 1 then ApiOutcome.exn "HTTPSConnectionPool host unreachable"
    else
      ApiOutcome.resp
        ⟨200, "",
         Except.ok (if i = 0 then "\x7b\"合同有效期\": \"未找到\"\x7d" else "审查意见正文")⟩

/-- Whether `needle` occurs as a contiguous substring of `hay`. -/
def hasSub : List Char → List Char → Bool
  | [], needle => needle.isEmpty
  | c :: t, needle => needle.isPrefixOf (c :: t) || hasSub t needle

theorem stringDataAppend (a b : String) : (a ++ b).data = a.data ++ b.data := by
  cases a; cases b; rfl

theorem stringDataInj {a b : String} (h : a.data = b.data) : a = b := by
  cases a; cases b; exact congrArg String.mk h

theorem isPrefixOf_iff_exists : ∀ (p l : List Char), p.isPrefixOf l = true ↔ ∃ t, p ++ t = l := by
  intro p
  induction p with
  | nil => intro l; simp [List.isPrefixOf]
  | cons a as ih =>
    intro l
    cases l with
    | nil => simp [List.isPrefixOf]
    | cons b bs =>
      simp only [List.isPrefixOf, Bool.and_eq_true, beq_iff_eq, ih bs]
      constructor
      · rintro ⟨hab, t, ht⟩
        exact ⟨t, by rw [List.cons_append, hab, ht]⟩
      · rintro ⟨t, ht⟩
        rw [List.cons_append] at ht
        injection ht with h1 h2
        exact ⟨h1, t, h2⟩

theorem not_prefixOf_cons (p : List Char) (hp : p ≠ []) (c : Char) (hc : c ∉ p) (t : List Char) :
    p.isPrefixOf (c :: t) = false := by
  cases p with
  | nil => exact absurd rfl hp
  | cons a as =>
    have hac : (a == c) = false := by
      rw [beq_eq_false_iff_ne]
      intro h
      subst h
      exact hc (List.mem_cons_self a as)
    simp [List.isPrefixOf, hac]

theorem replAux_skip_drop (p : List Char) : ∀ (s : Nat) (l : List Char),
    replAux p s l = replAux p 0 (l.drop s) := by
  intro s
  induction s with
  | zero => intro l; simp
  | succ s ih =>
    intro l
    cases l with
    | nil => simp [replAux]
    | cons c t => simpa [replAux] using ih t

theorem replAux_cons_noMatch {p : List Char} {c : Char} {t : List Char}
    (h : p.isPrefixOf (c :: t) = false) : replAux p 0 (c :: t) = c :: replAux p 0 t := by
  simp [replAux, h]

theorem replAux_head_match (p : List Char) (hp : p ≠ []) (r : List Char) :
    replAux p 0 (p ++ r) = replAux p 0 r := by
  cases p with
  | nil => exact absurd rfl hp
  | cons a as =>
    have hpre : (a :: as).isPrefixOf (a :: (as ++ r)) = true := by
      rw [show (a : Char) :: (as ++ r) = (a :: as) ++ r from rfl]
      exact (isPrefixOf_iff_exists _ _).mpr ⟨r, rfl⟩
    have hcond : ((a :: as).isPrefixOf (a :: (as ++ r)) && !(a :: as).isEmpty) = true := by
      simp [hpre, List.isEmpty]
    show replAux (a :: as) 0 (a :: (as ++ r)) = _
    rw [show replAux (a :: as) 0 (a :: (as ++ r)) =
          replAux (a :: as) ((a :: as).length - 1) (as ++ r) from by
        simp [replAux, hcond]]
    rw [replAux_skip_drop]
    simp [List.drop_left]

theorem replAux_append_cons (p : List Char) (hp : p ≠ []) (c : Char) (hc : c ∉ p) :
    ∀ (u v : List Char), replAux p 0 (u ++ c :: v) = replAux p 0 u ++ c :: replAux p 0 v := by
  suffices h : ∀ (n : Nat) (u v : List Char), u.length = n →
      replAux p 0 (u ++ c :: v) = replAux p 0 u ++ c :: replAux p 0 v by
    intro u v
    exact h u.length u v rfl
  intro n
  induction n using Nat.strong_induction_on with
  | _ n ih =>
    intro u v hlen
    by_cases hpre : p.isPrefixOf (u ++ c :: v) = true
    · obtain ⟨t0, ht0⟩ := (isPrefixOf_iff_exists _ _).mp hpre
      have hple : p.length ≤ u.length := by
        by_contra hgt
        push_neg at hgt
        have h1 : (u ++ c :: v).get? u.length = some c := by
          rw [List.get?_append_right (Nat.le_refl _)]
          simp
        have h2 : (u ++ c :: v).get? u.length = p.get? u.length := by
          rw [← ht0, List.get?_append hgt]
        rw [h1] at h2
        exact hc (List.get?_mem h2.symm)
      have htake : u.take p.length = p := by
        have h3 := congrArg (List.take p.length) ht0
        rw [List.take_left] at h3
        rw [List.take_append_eq_append_take] at h3
        rw [show p.length - u.length = 0 from by omega] at h3
        simpa using h3.symm
      have hu : p ++ u.drop p.length = u := by
        have h4 := List.take_append_drop p.length u
        rw [htake] at h4
        exact h4
      have hplen : 1 ≤ p.length := by
        cases p with
        | nil => exact absurd rfl hp
        | cons _ _ => simp
      have lhs1 : replAux p 0 (u ++ c :: v) = replAux p 0 (u.drop p.length ++ c :: v) := by
        conv_lhs => rw [← hu]
        rw [List.append_assoc, replAux_head_match p hp]
      have rhs1 : replAux p 0 u = replAux p 0 (u.drop p.length) := by
        conv_lhs => rw [← hu]
        rw [replAux_head_match p hp]
      rw [lhs1, rhs1]
      apply ih (u.drop p.length).length _ _ v rfl
      rw [List.length_drop]
      omega
    · cases u with
      | nil =>
        have hcf : p.isPrefixOf (c :: v) = false := by
          cases hh : p.isPrefixOf (c :: v) with
          | false => rfl
          | true => exact absurd (by simpa using hh) hpre
        rw [List.nil_append, replAux_cons_noMatch hcf]
        simp [replAux]
      | cons a u2 =>
        have h1 : p.isPrefixOf (a :: (u2 ++ c :: v)) = false := by
          rw [show (a : Char) :: (u2 ++ c :: v) = (a :: u2) ++ c :: v from rfl]
          cases hh : p.isPrefixOf ((a :: u2) ++ c :: v) with
          | false => rfl
          | true => exact absurd hh hpre
        have h2 : p.isPrefixOf (a :: u2) = false := by
          cases hh : p.isPrefixOf (a :: u2) with
          | false => rfl
          | true =>
            obtain ⟨t1, ht1⟩ := (isPrefixOf_iff_exists _ _).mp hh
            have h3 : p.isPrefixOf ((a :: u2) ++ c :: v) = true :=
              (isPrefixOf_iff_exists _ _).mpr ⟨t1 ++ c :: v, by rw [← List.append_assoc, ht1]⟩
            rw [show (a : Char) :: u2 ++ c :: v = (a :: u2) ++ c :: v from rfl] at hpre
            exact absurd h3 hpre
        show replAux p 0 ((a :: u2) ++ c :: v) = _
        rw [show (a :: u2) ++ c :: v = a :: (u2 ++ c :: v) from rfl]
        rw [replAux_cons_noMatch h1, replAux_cons_noMatch h2]
        rw [ih u2.length (by simp at hlen; omega) u2 v rfl]
        rfl

theorem dropWhile_append_all (q : Char → Bool) (w l : List Char) (h : ∀ x ∈ w, q x = true) :
    List.dropWhile q (w ++ l) = List.dropWhile q l := by
  induction w with
  | nil => rfl
  | cons a t ih =>
    rw [List.cons_append, List.dropWhile_cons_of_pos (by simp [h a (List.mem_cons_self a t)])]
    exact ih (fun x hx => h x (List.mem_cons_of_mem a hx))

theorem dropWhile_all (q : Char → Bool) (w : List Char) (h : ∀ x ∈ w, q x = true) :
    List.dropWhile q w = [] := by
  induction w with
  | nil => rfl
  | cons a t ih =>
    rw [List.dropWhile_cons_of_pos (by simp [h a (List.mem_cons_self a t)])]
    exact ih (fun x hx => h x (List.mem_cons_of_mem a hx))

theorem dropWhile_append_last (q : Char → Bool) (c : Char) (h : q c = false) :
    ∀ (u : List Char), ∃ w, List.dropWhile q (u ++ [c]) = w ++ [c] := by
  intro u
  induction u with
  | nil => exact ⟨[], by rw [List.nil_append, List.dropWhile_cons_of_neg (by simp [h])]⟩
  | cons a t ih =>
    cases ha : q a with
    | true =>
      obtain ⟨w, hw⟩ := ih
      exact ⟨w, by rw [List.cons_append, List.dropWhile_cons_of_pos (by simp [ha])]; exact hw⟩
    | false =>
      exact ⟨a :: t, by rw [List.cons_append, List.dropWhile_cons_of_neg (by simp [ha])]⟩

theorem dropTail_cons_head (q : Char → Bool) (c : Char) (t : List Char) (h : q c = false) :
    ∃ r, dropTail q (c :: t) = c :: r := by
  unfold dropTail
  obtain ⟨w, hw⟩ := dropWhile_append_last q c h t.reverse
  rw [show (c :: t).reverse = t.reverse ++ [c] from by simp]
  rw [hw]
  exact ⟨w.reverse, by simp⟩

theorem dropTail_append_last (q : Char → Bool) (c : Char) (x : List Char) (h : q c = false) :
    dropTail q (x ++ [c]) = x ++ [c] := by
  unfold dropTail
  rw [show (x ++ [c]).reverse = c :: x.reverse from by simp]
  rw [List.dropWhile_cons_of_neg (by simp [h])]
  simp

theorem dropTail_append_all (q : Char → Bool) (l w : List Char) (h : ∀ x ∈ w, q x = true) :
    dropTail q (l ++ w) = dropTail q l := by
  unfold dropTail
  rw [List.reverse_append]
  rw [dropWhile_append_all q w.reverse l.reverse (fun x hx => h x (List.mem_reverse.mp hx))]

theorem trimBoth_pad (q : Char → Bool) (w1 l w2 : List Char)
    (h1 : ∀ x ∈ w1, q x = true) (h2 : ∀ x ∈ w2, q x = true) :
    trimBoth q (w1 ++ l ++ w2) = trimBoth q l := by
  unfold trimBoth dropLead
  rw [List.append_assoc, dropWhile_append_all q w1 _ h1]
  induction l with
  | nil =>
    rw [List.nil_append, dropWhile_all q w2 h2]
    rfl
  | cons a t ih =>
    cases ha : q a with
    | true =>
      rw [List.cons_append, List.dropWhile_cons_of_pos (by simp [ha]),
        List.dropWhile_cons_of_pos (by simp [ha])]
      exact ih
    | false =>
      rw [List.cons_append, List.dropWhile_cons_of_neg (by simp [ha]),
        List.dropWhile_cons_of_neg (by simp [ha])]
      rw [show (a : Char) :: (t ++ w2) = (a :: t) ++ w2 from rfl]
      exact dropTail_append_all q (a :: t) w2 h2

theorem trimBoth_eq_self (q : Char → Bool) (c d : Char) (x : List Char)
    (hc : q c = false) (hd : q d = false) :
    trimBoth q (c :: (x ++ [d])) = c :: (x ++ [d]) := by
  unfold trimBoth dropLead
  rw [List.dropWhile_cons_of_neg (by simp [hc])]
  rw [show (c : Char) :: (x ++ [d]) = (c :: x) ++ [d] from rfl]
  exact dropTail_append_last q d (c :: x) hd

theorem parseVal_head_A (f : Nat) (t : List Char) : parseVal f ('A' :: t) = none := by
  cases f with
  | zero => rfl
  | succ f => rfl

theorem jsonLoads_none_of_data_A (s : String) (h : ∃ t, s.data = 'A' :: t) :
    jsonLoads s = none := by
  obtain ⟨t, ht⟩ := h
  unfold jsonLoads trimWs trimBoth dropLead
  rw [ht]
  rw [List.dropWhile_cons_of_neg (by decide)]
  obtain ⟨r, hr⟩ := dropTail_cons_head isJsonWsB 'A' t (by decide)
  rw [hr, parseVal_head_A]

theorem cleanResponse_data_api_err (e : String) :
    ∃ t, (cleanResponse ("API调用异常: " ++ e)).data = 'A' :: t := by
  have hdata : ("API调用异常: " ++ e).data = 'A' :: ("PI调用异常: ".data ++ e.data) := by
    rw [stringDataAppend]
    rfl
  have hp1ne : ("```json".data : List Char) ≠ [] := by decide
  have hp2ne : ("```".data : List Char) ≠ [] := by decide
  have hA1 : ('A' : Char) ∉ "```json".data := by decide
  have hA2 : ('A' : Char) ∉ "```".data := by decide
  unfold cleanResponse pyReplaceDel pyStrip
  simp only [String.data]
  rw [hdata]
  unfold trimBoth dropLead
  rw [List.dropWhile_cons_of_neg (by decide)]
  obtain ⟨r1, hr1⟩ := dropTail_cons_head pyIsSpace 'A' ("PI调用异常: ".data ++ e.data) (by decide)
  rw [hr1]
  rw [replAux_cons_noMatch (not_prefixOf_cons _ hp1ne 'A' hA1 r1)]
  rw [replAux_cons_noMatch (not_prefixOf_cons _ hp2ne 'A' hA2 _)]
  exact ⟨_, rfl⟩

theorem jsonLoads_cleanResponse_api_err (e : String) :
    jsonLoads (cleanResponse ("API调用异常: " ++ e)) = none :=
  jsonLoads_none_of_data_A _ (cleanResponse_data_api_err e)

theorem parseAgentResponse_api_err (e : String) :
    parseAgentResponse ("API调用异常: " ++ e) =
      Json.obj [("解析错误",
        Json.str ("无法将响应解析为JSON格式。原始响应: " ++
          cleanResponse ("API调用异常: " ++ e)))] := by
  unfold parseAgentResponse
  rw [jsonLoads_cleanResponse_api_err]

theorem cleanResponse_wrapFence (J : String) :
    cleanResponse (wrapFence J) =
      "\n" ++ pyReplaceDel (pyReplaceDel J "```json") "```" ++ "\n" := by
  apply stringDataInj
  have hD2 : (wrapFence J).data =
      "```json".data ++ ('\n' :: (J.data ++ ('\n' :: "```".data))) := by
    show (("```json\n" ++ J) ++ "\n```").data = _
    rw [stringDataAppend, stringDataAppend]
    rw [show "```json\n".data = "```json".data ++ ['\n'] from rfl]
    rw [show "\n```".data = '\n' :: "```".data from rfl]
    simp [List.append_assoc]
  have hD : (wrapFence J).data =
      Char.ofNat 96 :: ((("``json\n".data ++ J.data) ++ "\n``".data) ++ [Char.ofNat 96]) := by
    show (("```json\n" ++ J) ++ "\n```").data = _
    rw [stringDataAppend, stringDataAppend]
    rw [show "```json\n".data = Char.ofNat 96 :: "``json\n".data from rfl]
    rw [show "\n```".data = "\n``".data ++ [Char.ofNat 96] from rfl]
    simp [List.append_assoc]
  have hstrip : trimBoth pyIsSpace (wrapFence J).data = (wrapFence J).data := by
    rw [hD]
    exact trimBoth_eq_self pyIsSpace _ _ _ (by decide) (by decide)
  show (pyReplaceDel (pyReplaceDel (pyStrip (wrapFence J)) "```json") "```").data = _
  have hL : (pyReplaceDel (pyReplaceDel (pyStrip (wrapFence J)) "```json") "```").data =
      replAux "```".data 0
        (replAux "```json".data 0 (trimBoth pyIsSpace (wrapFence J).data)) := rfl
  rw [hL, hstrip, hD2]
  rw [replAux_head_match "```json".data (by decide)]
  rw [replAux_cons_noMatch (not_prefixOf_cons "```json".data (by decide) '\n' (by decide) _)]
  rw [replAux_append_cons "```json".data (by decide) '\n' (by decide) J.data "```".data]
  rw [show replAux "```json".data 0 "```".data = "```".data from by decide]
  rw [replAux_cons_noMatch (not_prefixOf_cons "```".data (by decide) '\n' (by decide) _)]
  rw [replAux_append_cons "```".data (by decide) '\n' (by decide) _ "```".data]
  rw [show replAux "```".data 0 "```".data = ([] : List Char) from by decide]
  rw [stringDataAppend, stringDataAppend]
  rfl

theorem jsonLoads_pad_newline (s : String) : jsonLoads ("\n" ++ s ++ "\n") = jsonLoads s := by
  have hd : ("\n" ++ s ++ "\n").data = ['\n'] ++ s.data ++ ['\n'] := by
    show (("\n" ++ s) ++ "\n").data = _
    rw [stringDataAppend, stringDataAppend]
  have htrim : trimWs ("\n" ++ s ++ "\n").data = trimWs s.data := by
    rw [hd]
    exact trimBoth_pad isJsonWsB ['\n'] s.data ['\n'] (by decide) (by decide)
  unfold jsonLoads
  rw [htrim]

/-- C1: every stage of `ContractProcessingThread.run` is invoked with exactly
the outputs of its declared upstream stages: the risk and compliance requests
are built from the StageResult of clause extraction (the parsed
`clause_data`, never the raw API reply), the report request is built from
the three StageResults of clause extraction, risk analysis and compliance
analysis, and the accuracy-check request is built from the original contract
text together with the report stage's output; no request mentions the output
of a later stage. -/
theorem claim_C1_stage_wiring (env : Nat → ApiOutcome) (text : String) :
    (runThread env text).requests =
      [clauseRequest text,
       riskRequest (runThread env text).results.clauses,
       complianceRequest (runThread env text).results.clauses none,
       reportRequest (runThread env text).results.clauses (runThread env text).results.risk
         (runThread env text).results.compliance,
       accuracyRequest text (runThread env text).results.report] ∧
    (runThread env text).results.clauses = parseAgentResponse (call_api (env 0)) :=
  ⟨rfl, rfl⟩

/-- C2 counterexample: the claim says every 2xx response yields the message
content verbatim, but `call_api` tests `status_code == 200`: a 201 response
with a perfectly valid body is turned into the failure string, not the
content. -/
theorem claim_C2_counterexample :
    (200 ≤ 201 ∧ 201 < 300) ∧
    call_api (ApiOutcome.resp ⟨201, "Created", Except.ok "操作成功"⟩) =
      "API调用失败: HTTP 201, Created" ∧
    call_api (ApiOutcome.resp ⟨201, "Created", Except.ok "操作成功"⟩) ≠ "操作成功" :=
  ⟨by decide, rfl, by decide⟩

/-- C2 amended: on a response with status exactly 200 whose body carries the
content string, `call_api` returns that string verbatim; on any other status
(2xx or not) it returns the failure string embedding status and text; on a
transport exception it returns the exception string — always as a returned
value, never as a raised exception. -/
theorem claim_C2_amended_call_api (status : Nat) (text c e : String) :
    (status = 200 → call_api (ApiOutcome.resp ⟨status, text, Except.ok c⟩) = c) ∧
    (status ≠ 200 → ∀ content : Except String String,
      call_api (ApiOutcome.resp ⟨status, text, content⟩) =
        "API调用失败: HTTP " ++ toString status ++ ", " ++ text) ∧
    call_api (ApiOutcome.exn e) = "API调用异常: " ++ e := by
  refine ⟨?_, ?_, rfl⟩
  · intro h
    subst h
    rfl
  · intro h content
    rw [show call_api (ApiOutcome.resp ⟨status, text, content⟩) =
          if status = 200 then
            (match content with
             | Except.ok c2 => c2
             | Except.error e2 => "API调用异常: " ++ e2)
          else "API调用失败: HTTP " ++ toString status ++ ", " ++ text from rfl]
    rw [if_neg h]

/-- C2 witness: the amended statement evaluated at a 200 response and at a
404 response. -/
theorem claim_C2_witness :
    call_api (ApiOutcome.resp ⟨200, "", Except.ok "你好"⟩) = "你好" ∧
    call_api (ApiOutcome.resp ⟨404, "Not Found", Except.ok "你好"⟩) =
      "API调用失败: HTTP " ++ toString 404 ++ ", " ++ "Not Found" :=
  ⟨(claim_C2_amended_call_api 200 "" "你好" "").1 rfl,
   (claim_C2_amended_call_api 404 "Not Found" "你好" "").2.1 (by decide) (Except.ok "你好")⟩

/-- C3 counterexample: with valid contract text and a transport failure on
the second stage (risk analysis), the run emits no failure notification,
emits exactly one completion notification, and still issues all five
requests (report generation and accuracy check included) — the transport
failure is swallowed inside `call_api` and flows forward as data, so the
pipeline is not aborted as the claim requires. -/
theorem claim_C3_counterexample :
    (runThread envRiskFail "甲方与乙方签订本合同。").events.countP Event.isError = 0 ∧
    (runThread envRiskFail "甲方与乙方签订本合同。").events.countP Event.isComplete = 1 ∧
    (runThread envRiskFail "甲方与乙方签订本合同。").requests.length = 5 :=
  ⟨rfl, rfl, rfl⟩

/-- C3 amended: when `requests.post` raises on the second stage, `call_api`
returns the exception string, the risk stage records a one-key 解析错误
record built from it, and the pipeline continues: all five stages are
invoked, no failure notification is emitted, and exactly one completion
notification is emitted. -/
theorem claim_C3_amended_pipeline_continues (env : Nat → ApiOutcome) (text e : String)
    (h : env 1 = ApiOutcome.exn e) :
    (runThread env text).events.countP Event.isError = 0 ∧
    (runThread env text).events.countP Event.isComplete = 1 ∧
    (runThread env text).requests.length = 5 ∧
    (runThread env text).results.risk =
      Json.obj [("解析错误",
        Json.str ("无法将响应解析为JSON格式。原始响应: " ++
          cleanResponse ("API调用异常: " ++ e)))] := by
  refine ⟨rfl, rfl, rfl, ?_⟩
  show parseAgentResponse (call_api (env 1)) = _
  rw [h]
  exact parseAgentResponse_api_err e

/-- C3 witness: the amended statement evaluated in the environment where the
risk-analysis call raises a connection error. -/
theorem claim_C3_witness :
    (runThread envRiskFail "测试合同文本").events.countP Event.isError = 0 ∧
    (runThread envRiskFail "测试合同文本").events.countP Event.isComplete = 1 ∧
    (runThread envRiskFail "测试合同文本").requests.length = 5 ∧
    (runThread envRiskFail "测试合同文本").results.risk =
      Json.obj [("解析错误",
        Json.str ("无法将响应解析为JSON格式。原始响应: " ++
          cleanResponse ("API调用异常: " ++ "HTTPSConnectionPool host unreachable")))] :=
  claim_C3_amended_pipeline_continues envRiskFail "测试合同文本"
    "HTTPSConnectionPool host unreachable" rfl

/-- C4 counterexample: for the fenced reply "```json\nnot json\n```" the
local variable `response` is reassigned to the stripped text before the
error record is built, so the record's value contains the fence-stripped
text "\nnot json\n" and does not contain the raw reply. -/
theorem claim_C4_counterexample :
    jsonLoads (cleanResponse "```json\nnot json\n```") = none ∧
    (clauseAnalyze (ApiOutcome.resp ⟨200, "", Except.ok "```json\nnot json\n```"⟩) "合同文本").2 =
      Json.obj [("解析错误", Json.str "无法将响应解析为JSON格式。原始响应: \nnot json\n")] ∧
    hasSub "无法将响应解析为JSON格式。原始响应: \nnot json\n".data
      "```json\nnot json\n```".data = false :=
  ⟨rfl, rfl, by decide⟩

/-- C4 amended: for every reply that is not valid JSON after fence stripping,
each structured agent's `analyze` returns a mapping with exactly one key,
解析错误, whose value contains the fence-stripped reply text (the value of
the reassigned local `response`, not the raw reply), and `analyze` never
raises. -/
theorem claim_C4_amended_parse_error_record (r : String) (d : Json)
    (h : jsonLoads (cleanResponse r) = none) :
    (clauseAnalyze (ApiOutcome.resp ⟨200, "", Except.ok r⟩) "合同文本").2 =
      Json.obj [("解析错误",
        Json.str ("无法将响应解析为JSON格式。原始响应: " ++ cleanResponse r))] ∧
    (riskAnalyze (ApiOutcome.resp ⟨200, "", Except.ok r⟩) d).2 =
      Json.obj [("解析错误",
        Json.str ("无法将响应解析为JSON格式。原始响应: " ++ cleanResponse r))] ∧
    (complianceAnalyze (ApiOutcome.resp ⟨200, "", Except.ok r⟩) d none).2 =
      Json.obj [("解析错误",
        Json.str ("无法将响应解析为JSON格式。原始响应: " ++ cleanResponse r))] := by
  have hp : parseAgentResponse r =
      Json.obj [("解析错误",
        Json.str ("无法将响应解析为JSON格式。原始响应: " ++ cleanResponse r))] := by
    unfold parseAgentResponse
    rw [h]
  exact ⟨hp, hp, hp⟩

/-- C4 witness: the amended statement evaluated at the non-JSON reply
"这不是JSON". -/
theorem claim_C4_witness :
    (clauseAnalyze (ApiOutcome.resp ⟨200, "", Except.ok "这不是JSON"⟩) "合同文本").2 =
      Json.obj [("解析错误",
        Json.str ("无法将响应解析为JSON格式。原始响应: " ++ cleanResponse "这不是JSON"))] ∧
    (riskAnalyze (ApiOutcome.resp ⟨200, "", Except.ok "这不是JSON"⟩) Json.null).2 =
      Json.obj [("解析错误",
        Json.str ("无法将响应解析为JSON格式。原始响应: " ++ cleanResponse "这不是JSON"))] ∧
    (complianceAnalyze (ApiOutcome.resp ⟨200, "", Except.ok "这不是JSON"⟩) Json.null none).2 =
      Json.obj [("解析错误",
        Json.str ("无法将响应解析为JSON格式。原始响应: " ++ cleanResponse "这不是JSON"))] :=
  claim_C4_amended_parse_error_record "这不是JSON" Json.null rfl

/-- C5: a structured agent given a JSON reply wrapped in Markdown code fences
produces the same parsed result as the agent given the reply without fences.
`h0` fixes the reply as already trimmed (a reply with surrounding whitespace
is covered by its trimmed form), `h1` says the reply is JSON, and `h2` says
the fence-stripped reply still parses (true of every JSON value, where
backticks can only occur inside strings). -/
theorem claim_C5_fence_round_trip (J : String) (v w : Json)
    (h0 : pyStrip J = J) (h1 : jsonLoads J = some v)
    (h2 : jsonLoads (cleanResponse J) = some w) :
    (clauseAnalyze (ApiOutcome.resp ⟨200, "", Except.ok (wrapFence J)⟩) "合同文本").2 =
      (clauseAnalyze (ApiOutcome.resp ⟨200, "", Except.ok J⟩) "合同文本").2 := by
  have eproj : ∀ (o : ApiOutcome) (t : String),
      (clauseAnalyze o t).2 = parseAgentResponse (call_api o) := fun _ _ => rfl
  have ecall1 : call_api (ApiOutcome.resp ⟨200, "", Except.ok (wrapFence J)⟩) = wrapFence J := rfl
  have ecall2 : call_api (ApiOutcome.resp ⟨200, "", Except.ok J⟩) = J := rfl
  rw [eproj, eproj, ecall1, ecall2]
  have hclean : cleanResponse J = pyReplaceDel (pyReplaceDel J "```json") "```" := by
    unfold cleanResponse
    rw [h0]
  have hw : cleanResponse (wrapFence J) = "\n" ++ cleanResponse J ++ "\n" := by
    rw [cleanResponse_wrapFence, hclean]
  unfold parseAgentResponse
  rw [hw, jsonLoads_pad_newline, h2]

/-- C5 witness: the round trip evaluated at a JSON reply whose string value
itself contains backticks. -/
theorem claim_C5_witness :
    pyStrip "\x7b\"key\": \"v```alue\"\x7d" = "\x7b\"key\": \"v```alue\"\x7d" ∧
    jsonLoads "\x7b\"key\": \"v```alue\"\x7d" = some (Json.obj [("key", Json.str "v```alue")]) ∧
    jsonLoads (cleanResponse "\x7b\"key\": \"v```alue\"\x7d") =
      some (Json.obj [("key", Json.str "value")]) ∧
    (clauseAnalyze
        (ApiOutcome.resp ⟨200, "", Except.ok (wrapFence "\x7b\"key\": \"v```alue\"\x7d")⟩)
        "合同文本").2 =
      (clauseAnalyze (ApiOutcome.resp ⟨200, "", Except.ok "\x7b\"key\": \"v```alue\"\x7d"⟩)
        "合同文本").2 :=
  ⟨rfl, rfl, rfl, claim_C5_fence_round_trip _ _ _ rfl rfl rfl⟩

/-- C6: with empty contract text, or an empty configured API key,
`process_contract` rejects the run with a warning dialog before constructing
or starting any worker thread — so no pipeline state is entered and no
network call is made. -/
theorem claim_C6_reject_empty (contract_text api_key : String)
    (h : contract_text = "" ∨ api_key = "") :
    (∃ title msg, processContract contract_text api_key = ProcessDecision.rejected title msg) ∧
    ∀ t k, processContract contract_text api_key ≠ ProcessDecision.started t k := by
  have hrej : ∃ title msg,
      processContract contract_text api_key = ProcessDecision.rejected title msg := by
    rcases h with h | h
    · exact ⟨"合同为空", "请先加载合同文件", by simp [processContract, h]⟩
    · by_cases ht : contract_text = ""
      · exact ⟨"合同为空", "请先加载合同文件", by simp [processContract, ht]⟩
      · exact ⟨"API密钥未设置", "请先设置API密钥", by simp [processContract, ht, h]⟩
  refine ⟨hrej, ?_⟩
  obtain ⟨title, msg, hr⟩ := hrej
  intro t k hc
  rw [hr] at hc
  exact ProcessDecision.noConfusion hc

/-- C6 witness: empty contract text with a configured API key is rejected. -/
theorem claim_C6_witness :
    (∃ title msg, processContract "" "sk-test-key" = ProcessDecision.rejected title msg) ∧
    ∀ t k, processContract "" "sk-test-key" ≠ ProcessDecision.started t k :=
  claim_C6_reject_empty "" "sk-test-key" (Or.inl rfl)

/-- C7: in every run (all modelled runs complete), the percent values of the
progress notifications form exactly the fixed schedule
10, 20, 35, 40, 55, 60, 75, 80, 90, 91, 100 in emission order, the sequence
is monotonically non-decreasing, and the completion notification is the last
event of the trace. -/
theorem claim_C7_progress_schedule (env : Nat → ApiOutcome) (text : String) :
    progressPercents (runThread env text) = [10, 20, 35, 40, 55, 60, 75, 80, 90, 91, 100] ∧
    List.Pairwise (fun a b => a ≤ b) (progressPercents (runThread env text)) ∧
    (runThread env text).events.getLast? =
      some (Event.complete (runThread env text).results) := by
  refine ⟨rfl, ?_, rfl⟩
  have h : progressPercents (runThread env text) =
      [10, 20, 35, 40, 55, 60, 75, 80, 90, 91, 100] := rfl
  rw [h]
  decide

/-- C8: the combined-report exporter produces one Markdown document with the
five numbered sections in the fixed order — clause extraction, risk
analysis, compliance analysis, detailed report, accuracy check — each
section's body a function of the corresponding stage's result only. -/
theorem claim_C8_combined_report_sections (res : RunResults) (now : String) :
    ∃ b1 b2 b3,
      generateCombinedReport res now =
        "# 合同审查综合报告\n\n" ++
        ("**审查日期:** " ++ now ++ "\n\n") ++
        "## 一、关键条款提取结果\n\n" ++ b1 ++
        "## 二、风险量化分析结果\n\n" ++ b2 ++
        "## 三、合规性分析结果\n\n" ++ b3 ++
        "## 四、详细审查报告\n\n" ++ res.report ++
        ("\n\n## 五、准确性检查结果\n\n" ++ res.accuracy) ∧
      b1 = sectionBody res.clauses ∧ b2 = sectionBody res.risk ∧ b3 = sectionBody res.compliance :=
  ⟨sectionBody res.clauses, sectionBody res.risk, sectionBody res.compliance, rfl, rfl, rfl, rfl⟩

theorem call_api_ne200 (sc : Nat) (tx : String) (ct : Except String String) (h : sc ≠ 200) :
    call_api (ApiOutcome.resp ⟨sc, tx, ct⟩) =
      "API调用失败: HTTP " ++ toString sc ++ ", " ++ tx := by
  have h2 : call_api (ApiOutcome.resp ⟨sc, tx, ct⟩) =
      if sc = 200 then
        (match ct with
         | Except.ok c => c
         | Except.error e => "API调用异常: " ++ e)
      else "API调用失败: HTTP " ++ toString sc ++ ", " ++ tx := rfl
  rw [h2, if_neg h]

theorem call_api_full_ne200 (sc : Nat) (tx : String) (c : Except String Json) (h : sc ≠ 200) :
    call_api_full (ApiJsonOutcome.resp ⟨sc, tx, c⟩) =
      Json.str ("API调用失败: HTTP " ++ toString sc ++ ", " ++ tx) := by
  have h2 : call_api_full (ApiJsonOutcome.resp ⟨sc, tx, c⟩) =
      if sc = 200 then
        (match c with
         | Except.ok v => v
         | Except.error e => Json.str ("API调用异常: " ++ e))
      else Json.str ("API调用失败: HTTP " ++ toString sc ++ ", " ++ tx) := rfl
  rw [h2, if_neg h]

theorem call_api_restriction (o : ApiOutcome) :
    call_api_full (toJsonOutcome o) = Json.str (call_api o) := by
  cases o with
  | exn m => rfl
  | resp r =>
    obtain ⟨sc, tx, ct⟩ := r
    by_cases h : sc = 200
    · subst h
      cases ct with
      | ok s => rfl
      | error e => rfl
    · rw [show toJsonOutcome (ApiOutcome.resp ⟨sc, tx, ct⟩) =
            ApiJsonOutcome.resp ⟨sc, tx, contentOfString ct⟩ from rfl]
      rw [call_api_full_ne200 sc tx (contentOfString ct) h, call_api_ne200 sc tx ct h]

/-- C9 counterexample: a 200 response whose body is valid JSON with the
choices[0].message.content path present but holding the non-string value
`null` — a transport behavior the claim quantifies over.  `call_api` has no
type check and returns that value verbatim, so it does not return a string
there: the claim's "returns a string for every transport behavior" is
false of the code. -/
theorem claim_C9_counterexample :
    call_api_full (ApiJsonOutcome.resp ⟨200, "", Except.ok Json.null⟩) = Json.null ∧
    (call_api_full (ApiJsonOutcome.resp ⟨200, "", Except.ok Json.null⟩)).isStr = false :=
  ⟨rfl, rfl⟩

/-- C9 amended: `call_api` always returns a value and never propagates an
exception; the returned value is the error string "API调用异常: ..." when the
transport raises or when a 200 response's body is not valid JSON or lacks
the choices[0].message.content path, the failure string on any non-200
status, and otherwise the value at the content path verbatim — a string
whenever the content is a string, but a non-string JSON value is returned
as-is.  On string-valued content the full model coincides with the
restricted `call_api` used by the pipeline. -/
theorem claim_C9_amended_call_api_total :
    (∀ o : ApiJsonOutcome, ∃ v : Json, call_api_full o = v) ∧
    (∀ text e : String,
      call_api_full (ApiJsonOutcome.resp ⟨200, text, Except.error e⟩) =
        Json.str ("API调用异常: " ++ e)) ∧
    (∀ e : String, call_api_full (ApiJsonOutcome.exn e) = Json.str ("API调用异常: " ++ e)) ∧
    (∀ (text : String) (v : Json),
      call_api_full (ApiJsonOutcome.resp ⟨200, text, Except.ok v⟩) = v) ∧
    (∀ (status : Nat) (text : String) (c : Except String Json), status ≠ 200 →
      call_api_full (ApiJsonOutcome.resp ⟨status, text, c⟩) =
        Json.str ("API调用失败: HTTP " ++ toString status ++ ", " ++ text)) ∧
    (∀ o : ApiOutcome, call_api_full (toJsonOutcome o) = Json.str (call_api o)) :=
  ⟨fun o => ⟨call_api_full o, rfl⟩, fun _ _ => rfl, fun _ => rfl, fun _ _ => rfl,
    fun status text c h => call_api_full_ne200 status text c h, call_api_restriction⟩

/-- C9 witness: the amended statement evaluated at a 500 response and at a
200 response with an undecodable body. -/
theorem claim_C9_witness :
    call_api_full (ApiJsonOutcome.resp ⟨500, "Server Error", Except.ok (Json.str "x")⟩) =
      Json.str ("API调用失败: HTTP " ++ toString 500 ++ ", " ++ "Server Error") ∧
    call_api_full (ApiJsonOutcome.resp ⟨200, "", Except.error "Expecting value"⟩) =
      Json.str ("API调用异常: " ++ "Expecting value") :=
  ⟨claim_C9_amended_call_api_total.2.2.2.2.1 500 "Server Error" (Except.ok (Json.str "x"))
      (by decide),
   claim_C9_amended_call_api_total.2.1 "" "Expecting value"⟩

/-- C10: fence stripping is a global substring replacement: in the valid
JSON reply below the substrings "```json" and "```" sitting inside a string
value are deleted before parsing, so the agent's parsed output differs from
the result of parsing the verbatim reply. -/
theorem claim_C10_global_fence_replacement :
    jsonLoads "\x7b\"k\": \"a```json b``` c\"\x7d" =
      some (Json.obj [("k", Json.str "a```json b``` c")]) ∧
    cleanResponse "\x7b\"k\": \"a```json b``` c\"\x7d" = "\x7b\"k\": \"a b c\"\x7d" ∧
    (clauseAnalyze (ApiOutcome.resp ⟨200, "", Except.ok "\x7b\"k\": \"a```json b``` c\"\x7d"⟩)
      "合同文本").2 = Json.obj [("k", Json.str "a b c")] ∧
    Json.obj [("k", Json.str "a b c")] ≠ Json.obj [("k", Json.str "a```json b``` c")] := by
  refine ⟨rfl, rfl, rfl, ?_⟩
  intro hc
  have h2 := congrArg (fun j => match j with
    | Json.obj ((_, Json.str s) :: _) => s
    | _ => "") hc
  exact absurd h2 (by decide)
